import Mathlib

/-!
Verification of the service lifecycle & health-verification orchestrator
specified for the dcos-commons excerpt (the `sdk_install` / `sdk_upgrade` /
`sdk_plan` / `sdk_jobs` / `sdk_metrics` / `sdk_networks` collaborators of
`frameworks/cassandra/tests/test_sanity.py`, and the diagnostics bundle stub
`tools/diagnostics/base_tech_bundle/hdfs_bundle.py`).

The sdk modules themselves are not part of the excerpt; their behaviour is
modelled from the specification (each such definition carries a
`Modelled from the spec:` doc comment).  The bundle stub and its retry
constants are embedded directly from the source.
-/

namespace DcosCommons

/-! ## Job Registry & Runner (`sdk_jobs.RunJobContext`) -/

/-- Observable event of a scenario run: installing a job, running a job,
or executing the scenario body. -/
inductive Ev where
  | install (j : String)
  | run (j : String)
  | body
deriving DecidableEq, Repr

/-- Modelled from the spec: missing module `sdk_jobs` (install and run each
job of the `before` list in order, stopping at the first failing job, whose
error propagates).  `outcome j = none` means job `j` succeeds, `some e`
that it fails with error `e`.  Returns the emitted events and the first
error, if any. -/
def runBefore (jobs : List String) (outcome : String → Option String) :
    List Ev × Option String :=
  match jobs with
  | [] => ([], none)
  | j :: rest =>
    match outcome j with
    | some e => ([Ev.install j, Ev.run j], some e)
    | none =>
      let r := runBefore rest outcome
      (Ev.install j :: Ev.run j :: r.1, r.2)

/-- Modelled from the spec: missing module `sdk_jobs` (install and run each
job of the `after` list in order; failures are logged, never propagated, and
do not stop the remaining after-jobs).  Returns the emitted events and the
list of logged after-job errors. -/
def runAfter (jobs : List String) (outcome : String → Option String) :
    List Ev × List String :=
  match jobs with
  | [] => ([], [])
  | j :: rest =>
    let r := runAfter rest outcome
    match outcome j with
    | some e => (Ev.install j :: Ev.run j :: r.1, e :: r.2)
    | none => (Ev.install j :: Ev.run j :: r.1, r.2)

/-- Result of running a scenario through the job run-context: the event
trace, the error surfaced to the caller (none on success), and the logged
(but not surfaced) after-job errors. -/
structure ContextResult where
  trace : List Ev
  surfaced : Option String
  logged : List String
deriving DecidableEq, Repr

/-- Modelled from the spec: missing module `sdk_jobs` (`RunJobContext`):
run the `before` jobs in order; if one fails, the scenario body is not
entered, the after-jobs are skipped and the before-job's error propagates.
Otherwise the body runs (`bodyErr` is its error, none on success), then all
`after` jobs run on every exit path; the surfaced error is the body's,
after-job errors are only logged. -/
def runContext (before after : List String) (bodyErr : Option String)
    (outcome : String → Option String) : ContextResult :=
  match (runBefore before outcome).2 with
  | some e => ⟨(runBefore before outcome).1, some e, []⟩
  | none =>
    ⟨(runBefore before outcome).1 ++ Ev.body :: (runAfter after outcome).1,
      bodyErr, (runAfter after outcome).2⟩

/-- The canonical install-then-run trace of a job list. -/
def jobTrace (jobs : List String) : List Ev :=
  jobs.flatMap (fun j => [Ev.install j, Ev.run j])

theorem runAfter_trace (jobs : List String) (outcome : String → Option String) :
    (runAfter jobs outcome).1 = jobTrace jobs := by
  induction jobs with
  | nil => rfl
  | cons j rest ih =>
    simp only [runAfter, jobTrace, List.flatMap_cons]
    cases outcome j <;> simp [ih, jobTrace]

theorem runBefore_trace_of_ok (jobs : List String)
    (outcome : String → Option String)
    (h : (runBefore jobs outcome).2 = none) :
    (runBefore jobs outcome).1 = jobTrace jobs := by
  induction jobs with
  | nil => rfl
  | cons j rest ih =>
    simp only [runBefore] at h ⊢
    cases hj : outcome j with
    | some e => simp [hj] at h
    | none =>
      simp only [hj] at h ⊢
      simp [jobTrace, ih h, List.flatMap_cons]

theorem runBefore_no_body (jobs : List String) (outcome : String → Option String) :
    Ev.body ∉ (runBefore jobs outcome).1 := by
  induction jobs with
  | nil => simp [runBefore]
  | cons j rest ih =>
    simp only [runBefore]
    cases outcome j <;> simp_all

theorem jobTrace_count_run (jobs : List String) (j : String) :
    (jobTrace jobs).count (Ev.run j) = jobs.count j := by
  induction jobs with
  | nil => rfl
  | cons a rest ih =>
    simp only [jobTrace, List.flatMap_cons] at ih ⊢
    by_cases h : a = j <;>
      simp [List.count_cons, List.count_append, ih, h, Ev.run.injEq, Ev.install.injEq]

theorem jobTrace_count_install (jobs : List String) (j : String) :
    (jobTrace jobs).count (Ev.install j) = jobs.count j := by
  induction jobs with
  | nil => rfl
  | cons a rest ih =>
    simp only [jobTrace, List.flatMap_cons] at ih ⊢
    by_cases h : a = j <;>
      simp [List.count_cons, List.count_append, ih, h, Ev.run.injEq, Ev.install.injEq]

/-- C1: if the scenario body raises, the after-jobs still execute fully (the
trace ends with the complete install-and-run trace of every after-job, in
order), and the error surfaced to the caller is the scenario body's original
error, never an after-job error (those are only logged). -/
theorem body_error_surfaced_after_jobs_run (before after : List String)
    (outcome : String → Option String) (e : String)
    (h : (runBefore before outcome).2 = none) :
    (runContext before after (some e) outcome).surfaced = some e ∧
    (runContext before after (some e) outcome).trace
      = jobTrace before ++ Ev.body :: jobTrace after := by
  unfold runContext
  rw [h]
  exact ⟨rfl, by rw [runBefore_trace_of_ok before outcome h, runAfter_trace]⟩

theorem body_error_surfaced_after_jobs_run_witness :
    (runContext ["write"] ["delete", "verify"] (some "boom")
        (fun j => if j = "delete" then some "cleanupfail" else none)).surfaced
      = some "boom" ∧
    (runContext ["write"] ["delete", "verify"] (some "boom")
        (fun j => if j = "delete" then some "cleanupfail" else none)).trace
      = jobTrace ["write"] ++ Ev.body :: jobTrace ["delete", "verify"] :=
  body_error_surfaced_after_jobs_run ["write"] ["delete", "verify"]
    (fun j => if j = "delete" then some "cleanupfail" else none) "boom" (by decide)

/-- C2: if the scenario body succeeds, every before-job and every after-job
has been installed and executed exactly once, with all before-jobs strictly
preceding the scenario body, the body strictly preceding all after-jobs, and
each list in its given order (the trace is exactly the before-jobs'
install-run trace, then the body, then the after-jobs' install-run trace). -/
theorem jobs_installed_run_once_in_order (before after : List String)
    (outcome : String → Option String)
    (h : (runBefore before outcome).2 = none) :
    (runContext before after none outcome).surfaced = none ∧
    (runContext before after none outcome).trace
      = jobTrace before ++ Ev.body :: jobTrace after ∧
    ∀ j : String,
      (runContext before after none outcome).trace.count (Ev.install j)
        = before.count j + after.count j ∧
      (runContext before after none outcome).trace.count (Ev.run j)
        = before.count j + after.count j := by
  have htr : (runContext before after none outcome).trace
      = jobTrace before ++ Ev.body :: jobTrace after := by
    unfold runContext
    rw [h]
    simp only
    rw [runBefore_trace_of_ok before outcome h, runAfter_trace]
  refine ⟨by unfold runContext; rw [h], htr, fun j => ?_⟩
  rw [htr]
  constructor <;>
    simp [List.count_append, List.count_cons, jobTrace_count_run,
      jobTrace_count_install]

theorem jobs_installed_run_once_in_order_witness :
    (runContext ["write", "verify"] ["delete", "verifydeletion"] none
        (fun _ => (none : Option String))).surfaced = none ∧
    (runContext ["write", "verify"] ["delete", "verifydeletion"] none
        (fun _ => (none : Option String))).trace
      = jobTrace ["write", "verify"] ++ Ev.body :: jobTrace ["delete", "verifydeletion"] ∧
    ∀ j : String,
      (runContext ["write", "verify"] ["delete", "verifydeletion"] none
          (fun _ => (none : Option String))).trace.count (Ev.install j)
        = (["write", "verify"] : List String).count j
            + (["delete", "verifydeletion"] : List String).count j ∧
      (runContext ["write", "verify"] ["delete", "verifydeletion"] none
          (fun _ => (none : Option String))).trace.count (Ev.run j)
        = (["write", "verify"] : List String).count j
            + (["delete", "verifydeletion"] : List String).count j :=
  jobs_installed_run_once_in_order ["write", "verify"] ["delete", "verifydeletion"]
    (fun _ => (none : Option String)) (by decide)

/-- C9: if a before-job fails, the scenario body is not entered, the
before-job's error propagates to the caller, and the after-jobs are skipped
(the trace is exactly the truncated before-job trace, and nothing is even
logged from after-jobs). -/
theorem before_failure_skips_body_and_after (before after : List String)
    (outcome : String → Option String) (bodyErr : Option String) (e : String)
    (h : (runBefore before outcome).2 = some e) :
    (runContext before after bodyErr outcome).surfaced = some e ∧
    Ev.body ∉ (runContext before after bodyErr outcome).trace ∧
    (runContext before after bodyErr outcome).trace = (runBefore before outcome).1 ∧
    (runContext before after bodyErr outcome).logged = [] := by
  unfold runContext
  rw [h]
  exact ⟨rfl, runBefore_no_body before outcome, rfl, rfl⟩

theorem before_failure_skips_body_and_after_witness :
    (runContext ["write", "verify"] ["delete"] (some "neverruns")
        (fun j => if j = "verify" then some "setupfail" else none)).surfaced
      = some "setupfail" ∧
    Ev.body ∉ (runContext ["write", "verify"] ["delete"] (some "neverruns")
        (fun j => if j = "verify" then some "setupfail" else none)).trace ∧
    (runContext ["write", "verify"] ["delete"] (some "neverruns")
        (fun j => if j = "verify" then some "setupfail" else none)).trace
      = (runBefore ["write", "verify"]
          (fun j => if j = "verify" then some "setupfail" else none)).1 ∧
    (runContext ["write", "verify"] ["delete"] (some "neverruns")
        (fun j => if j = "verify" then some "setupfail" else none)).logged = [] :=
  before_failure_skips_body_and_after ["write", "verify"] ["delete"]
    (fun j => if j = "verify" then some "setupfail" else none)
    (some "neverruns") "setupfail" (by decide)

/-! ## Plan Executor (`sdk_plan`) -/

/-- Status of a plan as reported by the service. -/
inductive PlanStatus where
  | pending
  | started
  | inProgress
  | complete
  | failed
deriving DecidableEq, Repr

/-- Terminal outcome of waiting for a plan. -/
inductive PlanResult where
  | success
  | planFailed
  | planTimeout
deriving DecidableEq, Repr

/-- Modelled from the spec: missing module `sdk_plan`
(`wait_for_completed_plan`): poll the plan status at a fixed interval
starting at time `t` with `fuel` remaining polls; success on `COMPLETE`,
`PlanFailed` on `FAILED`, `PlanTimeout` once the budget is exhausted.
Returns the result together with the poll time at which the loop stopped. -/
def pollPlan (statusAt : Nat → PlanStatus) : Nat → Nat → PlanResult × Nat
  | fuel, t =>
    match statusAt t with
    | PlanStatus.complete => (PlanResult.success, t)
    | PlanStatus.failed => (PlanResult.planFailed, t)
    | _ =>
      match fuel with
      | 0 => (PlanResult.planTimeout, t)
      | f + 1 => pollPlan statusAt f (t + 1)

/-- Modelled from the spec: missing module `sdk_plan`: wait for plan
completion with `timeout` further polls after the initial one, starting from
time 0. -/
def wait_for_completion (statusAt : Nat → PlanStatus) (timeout : Nat) :
    PlanResult :=
  (pollPlan statusAt timeout 0).1

theorem pollPlan_success_sees_complete (statusAt : Nat → PlanStatus) :
    ∀ fuel t, (pollPlan statusAt fuel t).1 = PlanResult.success →
      ∃ s, t ≤ s ∧ s ≤ t + fuel ∧ statusAt s = PlanStatus.complete := by
  intro fuel
  induction fuel with
  | zero =>
    intro t h
    simp only [pollPlan] at h
    cases hs : statusAt t
    case complete => exact ⟨t, le_refl t, by omega, hs⟩
    all_goals simp [hs] at h
  | succ f ih =>
    intro t h
    simp only [pollPlan] at h
    cases hs : statusAt t
    case complete => exact ⟨t, le_refl t, by omega, hs⟩
    case failed => simp [hs] at h
    all_goals
      simp only [hs] at h
      obtain ⟨s, hs1, hs2, hs3⟩ := ih (t + 1) h
      exact ⟨s, by omega, by omega, hs3⟩

theorem pollPlan_timeout_of_running (statusAt : Nat → PlanStatus) :
    ∀ fuel t,
      (∀ s, t ≤ s → s ≤ t + fuel →
        statusAt s = PlanStatus.started ∨ statusAt s = PlanStatus.inProgress) →
      (pollPlan statusAt fuel t).1 = PlanResult.planTimeout := by
  intro fuel
  induction fuel with
  | zero =>
    intro t h
    rcases h t (le_refl t) (by omega) with hs | hs <;> simp [pollPlan, hs]
  | succ f ih =>
    intro t h
    have hrec := ih (t + 1) (fun s h1 h2 => h s (by omega) (by omega))
    rcases h t (le_refl t) (by omega) with hs | hs <;>
      simp [pollPlan, hs, hrec]

theorem pollPlan_failed (statusAt : Nat → PlanStatus) :
    ∀ fuel t s, t ≤ s → s ≤ t + fuel → statusAt s = PlanStatus.failed →
      (∀ u, t ≤ u → u < s →
        statusAt u = PlanStatus.started ∨ statusAt u = PlanStatus.inProgress) →
      (pollPlan statusAt fuel t).1 = PlanResult.planFailed := by
  intro fuel
  induction fuel with
  | zero =>
    intro t s h1 h2 hf _hearly
    have : s = t := by omega
    subst this
    simp [pollPlan, hf]
  | succ f ih =>
    intro t s h1 h2 hf hearly
    by_cases hts : s = t
    · subst hts
      simp [pollPlan, hf]
    · have hlt : t < s := by omega
      have hrec := ih (t + 1) s (by omega) (by omega) hf
        (fun u hu1 hu2 => hearly u (by omega) hu2)
      rcases hearly t (le_refl t) hlt with hs | hs <;>
        simp [pollPlan, hs, hrec]

/-- C3: `wait_for_completion` returns success only when the plan status was
`COMPLETE` at some poll; if the plan is still `STARTED` or `IN_PROGRESS` at
every poll within the timeout it fails with `PlanTimeout` (never silently
returning success); and if the plan reaches `FAILED` (having only been
running before) it fails with `PlanFailed`. -/
theorem wait_for_completion_terminal (statusAt : Nat → PlanStatus)
    (timeout : Nat) :
    (wait_for_completion statusAt timeout = PlanResult.success →
      ∃ s, s ≤ timeout ∧ statusAt s = PlanStatus.complete) ∧
    ((∀ s, s ≤ timeout →
        statusAt s = PlanStatus.started ∨ statusAt s = PlanStatus.inProgress) →
      wait_for_completion statusAt timeout = PlanResult.planTimeout) ∧
    (∀ s, s ≤ timeout → statusAt s = PlanStatus.failed →
      (∀ u, u < s →
        statusAt u = PlanStatus.started ∨ statusAt u = PlanStatus.inProgress) →
      wait_for_completion statusAt timeout = PlanResult.planFailed) := by
  refine ⟨fun h => ?_, fun h => ?_, fun s h1 h2 h3 => ?_⟩
  · obtain ⟨s, _, hs2, hs3⟩ :=
      pollPlan_success_sees_complete statusAt timeout 0 h
    exact ⟨s, by omega, hs3⟩
  · exact pollPlan_timeout_of_running statusAt timeout 0
      (fun s _ hs => h s (by omega))
  · exact pollPlan_failed statusAt timeout 0 s (by omega) (by omega) h2
      (fun u _ hu => h3 u hu)

theorem wait_for_completion_terminal_witness :
    wait_for_completion (fun _ => PlanStatus.started) 3
      = PlanResult.planTimeout :=
  (wait_for_completion_terminal (fun _ => PlanStatus.started) 3).2.1
    (fun _ _ => Or.inl rfl)

/-- Outcome of two plan invocations chained by the caller. -/
structure ChainResult where
  resA : PlanResult
  endA : Nat
  resB : PlanResult
  endB : Nat
deriving DecidableEq, Repr

/-- Modelled from the spec: the caller-side chaining of two plan invocations
(as in the test body: cleanup is started and awaited, then repair): plan B's
polling starts only at the time plan A's wait stopped. -/
def chainPlans (sA sB : Nat → PlanStatus) (timeout t0 : Nat) : ChainResult :=
  ⟨(pollPlan sA timeout t0).1, (pollPlan sA timeout t0).2,
    (pollPlan sB timeout (pollPlan sA timeout t0).2).1,
    (pollPlan sB timeout (pollPlan sA timeout t0).2).2⟩

theorem pollPlan_time_ge (statusAt : Nat → PlanStatus) :
    ∀ fuel t, t ≤ (pollPlan statusAt fuel t).2 := by
  intro fuel
  induction fuel with
  | zero =>
    intro t
    simp only [pollPlan]
    cases statusAt t <;> simp
  | succ f ih =>
    intro t
    simp only [pollPlan]
    cases statusAt t <;> simp <;> exact le_trans (by omega) (ih (t + 1))

theorem pollPlan_congr (s1 s2 : Nat → PlanStatus) :
    ∀ fuel t, (∀ u, t ≤ u → s1 u = s2 u) →
      pollPlan s1 fuel t = pollPlan s2 fuel t := by
  intro fuel
  induction fuel with
  | zero =>
    intro t h
    simp only [pollPlan, h t (le_refl t)]
  | succ f ih =>
    intro t h
    have hrec := ih (t + 1) (fun u hu => h u (by omega))
    simp only [pollPlan, h t (le_refl t), hrec]

/-- C7: chained plan invocations are strictly sequential: the second plan's
polling starts exactly when the first plan's wait finished (so the earlier
plan fully completes before the later starts), poll times only advance, and
the executor itself does not serialize independent invocations — each plan's
outcome depends only on its own status stream, the second one only on
statuses from the first plan's completion time onwards. -/
theorem chained_plans_sequential (sA sB : Nat → PlanStatus) (timeout t0 : Nat) :
    t0 ≤ (chainPlans sA sB timeout t0).endA ∧
    (chainPlans sA sB timeout t0).endA ≤ (chainPlans sA sB timeout t0).endB ∧
    (chainPlans sA sB timeout t0).resA = (pollPlan sA timeout t0).1 ∧
    ∀ sB' : Nat → PlanStatus,
      (∀ u, (chainPlans sA sB timeout t0).endA ≤ u → sB u = sB' u) →
      chainPlans sA sB' timeout t0 = chainPlans sA sB timeout t0 := by
  refine ⟨pollPlan_time_ge sA timeout t0,
    pollPlan_time_ge sB timeout (pollPlan sA timeout t0).2, rfl,
    fun sB' h => ?_⟩
  have := pollPlan_congr sB' sB timeout (pollPlan sA timeout t0).2
    (fun u hu => (h u hu).symm)
  simp only [chainPlans, this]

theorem chained_plans_sequential_witness :
    chainPlans (fun _ => PlanStatus.complete)
        (fun u => if u < 2 then PlanStatus.failed else PlanStatus.complete) 4 2
      = chainPlans (fun _ => PlanStatus.complete)
        (fun _ => PlanStatus.complete) 4 2 :=
  (chained_plans_sequential (fun _ => PlanStatus.complete)
      (fun _ => PlanStatus.complete) 4 2).2.2.2
    (fun u => if u < 2 then PlanStatus.failed else PlanStatus.complete)
    (fun u hu => by
      have h2 : 2 ≤ u := hu
      show PlanStatus.complete = if u < 2 then PlanStatus.failed else PlanStatus.complete
      rw [if_neg (by omega)])

/-! ## Install/Upgrade Orchestrator (`sdk_install`) -/

/-- Modelled from the spec: missing module `sdk_install` (`uninstall`):
request removal of a deployed instance and poll until torn down or timeout;
an already-absent service is treated as success (idempotent no-op).
`installed` is the set of deployed service names; `tearsDown` tells whether
the platform's teardown converges within the poll budget for a present
service.  Returns the new deployment state and whether the call succeeded. -/
def uninstall (tearsDown : Bool) (installed : String → Bool) (svc : String) :
    (String → Bool) × Bool :=
  if installed svc then
    if tearsDown then (fun s => if s = svc then false else installed s, true)
    else (installed, false)
  else (installed, true)

/-- C5: uninstall on an already-absent service returns success and changes
nothing; in particular any successful uninstall can be followed by a second
uninstall of the same service, which also succeeds (idempotent no-op). -/
theorem uninstall_absent_idempotent (td td2 : Bool) (installed : String → Bool)
    (svc : String) :
    (installed svc = false →
      (uninstall td installed svc).2 = true ∧
      (uninstall td installed svc).1 = installed) ∧
    ((uninstall td installed svc).2 = true →
      (uninstall td2 (uninstall td installed svc).1 svc).2 = true) := by
  constructor
  · intro h
    simp [uninstall, h]
  · intro h
    by_cases hin : installed svc
    · by_cases htd : td
      · simp [uninstall, hin, htd]
      · simp [uninstall, hin, htd] at h
    · simp [uninstall, hin]

theorem uninstall_absent_idempotent_witness :
    (uninstall true (fun _ => false) "cassandra").2 = true ∧
    (uninstall true (uninstall true (fun _ => false) "cassandra").1
        "cassandra").2 = true :=
  ⟨((uninstall_absent_idempotent true true (fun _ => false) "cassandra").1
      rfl).1,
    (uninstall_absent_idempotent true true (fun _ => false) "cassandra").2
      ((uninstall_absent_idempotent true true (fun _ => false) "cassandra").1
        rfl).1⟩

/-! ## Endpoint Verifier (`sdk_networks`, `sdk_hosts`) -/

/-- Raw per-kind endpoint data held by the service: DNS entries and an
optional VIP (absent for internal-only kinds). -/
structure RawEndpoint where
  dns : List String
  vip : Option String
deriving DecidableEq, Repr

/-- Sanitized endpoint descriptor returned to callers: the keys present in
the returned mapping, and the DNS entries. -/
structure Endpoint where
  keys : List String
  dns : List String
deriving DecidableEq, Repr

/-- Modelled from the spec: missing module `sdk_hosts` (`autoip_host`): the
expected autoip hostname pattern for a task of a service on a port. -/
def autoip_host (service task : String) (port : Nat) : String :=
  task ++ "." ++ service ++ ".autoip.dcos.thisdcos.directory:" ++ toString port

/-- Modelled from the spec: missing module `sdk_networks` (`get_endpoint`):
fetch the current descriptor for an endpoint kind; `EndpointNotFound` if the
kind is unknown; output is sanitized — a `vip` key is present only when the
kind actually has a VIP, an absent VIP yields no key at all (absence, not an
empty value). -/
def get_endpoint (table : String → Option RawEndpoint) (kind : String) :
    Except String Endpoint :=
  match table kind with
  | none => Except.error "EndpointNotFound"
  | some raw =>
    Except.ok
      ⟨"dns" :: (match raw.vip with | some _ => ["vip"] | none => []), raw.dns⟩

/-- Modelled from the spec: the deployed service's endpoint table for the
test scenario — the `native-client` kind has no VIP and a single DNS entry,
the autoip host of task `node-<i>-server` on port 9042. -/
def cassandraEndpoints (service : String) (taskIndex : Nat) :
    String → Option RawEndpoint :=
  fun kind =>
    if kind = "native-client" then
      some ⟨[autoip_host service ("node-" ++ toString taskIndex ++ "-server") 9042],
        none⟩
    else none

/-- C4: for every endpoint kind with no VIP, the returned descriptor never
contains a `vip` key (the internal-only field is omitted entirely), and for
the `native-client` kind of the deployed service the first DNS entry equals
the expected autoip hostname pattern for the given service and task index. -/
theorem vipless_endpoint_sanitized (table : String → Option RawEndpoint)
    (kind : String) (raw : RawEndpoint)
    (h : table kind = some raw) (hvip : raw.vip = none) :
    (∀ ep : Endpoint, get_endpoint table kind = Except.ok ep →
      "vip" ∉ ep.keys ∧ ep.dns = raw.dns) ∧
    ∀ (service : String) (taskIndex : Nat) (ep : Endpoint),
      get_endpoint (cassandraEndpoints service taskIndex) "native-client"
        = Except.ok ep →
      "vip" ∉ ep.keys ∧
      ep.dns.head? = some (autoip_host service
        ("node-" ++ toString taskIndex ++ "-server") 9042) := by
  constructor
  · intro ep hep
    simp only [get_endpoint, h, hvip] at hep
    cases hep
    exact ⟨by simp, rfl⟩
  · intro service taskIndex ep hep
    simp only [get_endpoint, cassandraEndpoints, if_pos rfl] at hep
    cases hep
    exact ⟨by simp, rfl⟩

theorem vipless_endpoint_sanitized_witness :
    "vip" ∉ (Endpoint.mk ["dns"]
        [autoip_host "svc" ("node-" ++ toString 0 ++ "-server") 9042]).keys ∧
    (Endpoint.mk ["dns"]
        [autoip_host "svc" ("node-" ++ toString 0 ++ "-server") 9042]).dns.head?
      = some (autoip_host "svc" ("node-" ++ toString 0 ++ "-server") 9042) :=
  (vipless_endpoint_sanitized (cassandraEndpoints "svc" 0) "native-client"
      ⟨[autoip_host "svc" ("node-" ++ toString 0 ++ "-server") 9042], none⟩
      rfl rfl).2 "svc" 0
    ⟨["dns"], [autoip_host "svc" ("node-" ++ toString 0 ++ "-server") 9042]⟩ rfl

/-! ## Metrics Verifier (`sdk_metrics`) -/

/-- Terminal outcome of waiting for metrics. -/
inductive MetricsResult where
  | success
  | metricsTimeout
deriving DecidableEq, Repr

/-- Modelled from the spec: missing module `sdk_metrics`
(`check_metrics_presence`): true iff every expected metric name is among the
emitted metric names (subset test, not exact match). -/
def check_metrics_presence (emitted expected : List String) : Bool :=
  expected.all (fun m => emitted.contains m)

/-- Modelled from the spec: missing module `sdk_metrics`
(`wait_for_service_metrics`): poll the emitted metrics stream (the emitted
names at poll time `t` are `stream t`) until the caller-supplied predicate
holds or the poll budget is exhausted, in which case `MetricsTimeout`. -/
def pollMetrics (stream : Nat → List String) (pred : List String → Bool) :
    Nat → Nat → MetricsResult
  | fuel, t =>
    if pred (stream t) then MetricsResult.success
    else
      match fuel with
      | 0 => MetricsResult.metricsTimeout
      | f + 1 => pollMetrics stream pred f (t + 1)

/-- Modelled from the spec: missing module `sdk_metrics`: wait for the
predicate with `timeout` further polls after the initial one, from time 0. -/
def wait_for_metrics (stream : Nat → List String) (pred : List String → Bool)
    (timeout : Nat) : MetricsResult :=
  pollMetrics stream pred timeout 0

theorem check_metrics_presence_iff (emitted expected : List String) :
    check_metrics_presence emitted expected = true ↔
      ∀ m ∈ expected, m ∈ emitted := by
  simp [check_metrics_presence]

theorem pollMetrics_success_sees_pred (stream : Nat → List String)
    (pred : List String → Bool) :
    ∀ fuel t, pollMetrics stream pred fuel t = MetricsResult.success →
      ∃ s, t ≤ s ∧ s ≤ t + fuel ∧ pred (stream s) = true := by
  intro fuel
  induction fuel with
  | zero =>
    intro t h
    simp only [pollMetrics] at h
    by_cases hp : pred (stream t) = true
    · exact ⟨t, le_refl t, by omega, hp⟩
    · simp [hp] at h
  | succ f ih =>
    intro t h
    simp only [pollMetrics] at h
    by_cases hp : pred (stream t) = true
    · exact ⟨t, le_refl t, by omega, hp⟩
    · simp only [hp, if_false, Bool.false_eq_true] at h
      obtain ⟨s, h1, h2, h3⟩ := ih (t + 1) h
      exact ⟨s, by omega, by omega, h3⟩

theorem pollMetrics_timeout_of_never (stream : Nat → List String)
    (pred : List String → Bool) :
    ∀ fuel t, (∀ s, t ≤ s → s ≤ t + fuel → pred (stream s) = false) →
      pollMetrics stream pred fuel t = MetricsResult.metricsTimeout := by
  intro fuel
  induction fuel with
  | zero =>
    intro t h
    simp [pollMetrics, h t (le_refl t) (by omega)]
  | succ f ih =>
    intro t h
    have hrec := ih (t + 1) (fun s h1 h2 => h s (by omega) (by omega))
    simp [pollMetrics, h t (le_refl t) (by omega), hrec]

/-- C6: with the caller-supplied subset predicate over named expected
metrics, `wait_for_metrics` returns success only once every expected metric
has appeared in the emitted stream at some poll, and it fails with
`MetricsTimeout` when some expected metric (e.g., the third of three) never
appears within the deadline. -/
theorem wait_for_metrics_subset (stream : Nat → List String)
    (expected : List String) (timeout : Nat) :
    (wait_for_metrics stream (fun em => check_metrics_presence em expected)
        timeout = MetricsResult.success →
      ∃ t, t ≤ timeout ∧ ∀ m ∈ expected, m ∈ stream t) ∧
    ((∃ m ∈ expected, ∀ t, t ≤ timeout → m ∉ stream t) →
      wait_for_metrics stream (fun em => check_metrics_presence em expected)
        timeout = MetricsResult.metricsTimeout) := by
  constructor
  · intro h
    obtain ⟨s, _, h2, h3⟩ := pollMetrics_success_sees_pred stream
      (fun em => check_metrics_presence em expected) timeout 0 h
    exact ⟨s, by omega, (check_metrics_presence_iff (stream s) expected).mp h3⟩
  · rintro ⟨m, hm, hmiss⟩
    refine pollMetrics_timeout_of_never stream
      (fun em => check_metrics_presence em expected) timeout 0
      (fun s _ hs => ?_)
    by_contra hp
    have hall := (check_metrics_presence_iff (stream s) expected).mp
      (Bool.not_eq_false _ |>.mp hp)
    exact hmiss s (by omega) (hall m hm)

theorem wait_for_metrics_subset_witness :
    wait_for_metrics (fun _ => ["readlatency", "compressionratio"])
        (fun em => check_metrics_presence em
          ["readlatency", "compressionratio", "activetasks"]) 4
      = MetricsResult.metricsTimeout :=
  (wait_for_metrics_subset (fun _ => ["readlatency", "compressionratio"])
      ["readlatency", "compressionratio", "activetasks"] 4).2
    ⟨"activetasks", by decide, fun t _ => by decide⟩

/-! ## Bounded convergence polling and retry defaults
(`tools/diagnostics/base_tech_bundle/hdfs_bundle.py`) -/

/-- Default retry wait in milliseconds, from
`tools/diagnostics/base_tech_bundle/hdfs_bundle.py`. -/
def DEFAULT_RETRY_WAIT : Nat := 1000

/-- Default maximum number of retry attempts, from
`tools/diagnostics/base_tech_bundle/hdfs_bundle.py`. -/
def DEFAULT_RETRY_MAX_ATTEMPTS : Nat := 5

/-- Modelled from the spec: the orchestrator's generalized convergence
polling (the `DEFAULT_RETRY_WAIT` / `DEFAULT_RETRY_MAX_ATTEMPTS` pattern):
attempt `i` evaluates `check i`; the first successful attempt index is
returned, and exhausting the attempt budget is a terminal, reported
`ConvergenceTimeout` failure — never silent and never an infinite retry. -/
def pollAttempts (check : Nat → Bool) : Nat → Nat → Except String Nat
  | 0, _ => Except.error "ConvergenceTimeout"
  | f + 1, i => if check i then Except.ok i else pollAttempts check f (i + 1)

/-- Modelled from the spec: convergence polling with the default attempt
budget. -/
def poll_until_default (check : Nat → Bool) : Except String Nat :=
  pollAttempts check DEFAULT_RETRY_MAX_ATTEMPTS 0

theorem pollAttempts_error_of_never (check : Nat → Bool) :
    ∀ fuel i, (∀ j, i ≤ j → j < i + fuel → check j = false) →
      pollAttempts check fuel i = Except.error "ConvergenceTimeout" := by
  intro fuel
  induction fuel with
  | zero => intro i _; rfl
  | succ f ih =>
    intro i h
    have hrec := ih (i + 1) (fun j h1 h2 => h j (by omega) (by omega))
    simp [pollAttempts, h i (le_refl i) (by omega), hrec]

theorem pollAttempts_ok_bound (check : Nat → Bool) :
    ∀ fuel i j, pollAttempts check fuel i = Except.ok j →
      i ≤ j ∧ j < i + fuel ∧ check j = true := by
  intro fuel
  induction fuel with
  | zero => intro i j h; simp [pollAttempts] at h
  | succ f ih =>
    intro i j h
    simp only [pollAttempts] at h
    by_cases hc : check i = true
    · simp only [hc, if_true] at h
      cases h
      exact ⟨le_refl i, by omega, hc⟩
    · simp only [hc, if_false, Bool.false_eq_true] at h
      obtain ⟨h1, h2, h3⟩ := ih (i + 1) j h
      exact ⟨by omega, by omega, h3⟩

/-- C8: convergence polling is bounded: the defaults are a wait of 1000 ms
and 5 attempts; a check that never succeeds within the (configurable)
attempt budget makes the poll terminate with the reported, terminal
`ConvergenceTimeout` error, and any success is reached within the budget. -/
theorem convergence_polling_bounded (check : Nat → Bool) (maxAttempts : Nat) :
    DEFAULT_RETRY_WAIT = 1000 ∧
    DEFAULT_RETRY_MAX_ATTEMPTS = 5 ∧
    ((∀ i, i < maxAttempts → check i = false) →
      pollAttempts check maxAttempts 0 = Except.error "ConvergenceTimeout") ∧
    (∀ j, pollAttempts check maxAttempts 0 = Except.ok j →
      j < maxAttempts ∧ check j = true) ∧
    poll_until_default check = pollAttempts check DEFAULT_RETRY_MAX_ATTEMPTS 0 := by
  refine ⟨rfl, rfl, fun h => ?_, fun j hj => ?_, rfl⟩
  · exact pollAttempts_error_of_never check maxAttempts 0
      (fun i _ hi => h i (by omega))
  · obtain ⟨_, h2, h3⟩ := pollAttempts_ok_bound check maxAttempts 0 j hj
    exact ⟨by omega, h3⟩

theorem convergence_polling_bounded_witness :
    pollAttempts (fun _ => false) DEFAULT_RETRY_MAX_ATTEMPTS 0
      = Except.error "ConvergenceTimeout" :=
  (convergence_polling_bounded (fun _ => false)
      DEFAULT_RETRY_MAX_ATTEMPTS).2.2.1 (fun _ _ => rfl)

/-! ## Diagnostics bundle stub (`HdfsBundle.create`) -/

/-- Observable state of a diagnostics bundle: the produced bundle artifacts
and the emitted log messages. -/
structure BundleState where
  artifacts : List String
  logMessages : List String
deriving DecidableEq, Repr

namespace HdfsBundle

/-- Embedded from `tools/diagnostics/base_tech_bundle/hdfs_bundle.py`:
`HdfsBundle.create` returns no value and only logs
"Creating HDFS bundle (noop)". -/
def create (s : BundleState) : Option String × BundleState :=
  (none, ⟨s.artifacts, s.logMessages ++ ["Creating HDFS bundle (noop)"]⟩)

end HdfsBundle

/-- C10: `HdfsBundle.create` is a pure no-op at the public interface: it
returns no value, produces no bundle artifact (the artifact state is
unchanged), and its only effect is appending one log message. -/
theorem hdfs_create_noop (s : BundleState) :
    (HdfsBundle.create s).1 = none ∧
    (HdfsBundle.create s).2.artifacts = s.artifacts ∧
    (HdfsBundle.create s).2.logMessages
      = s.logMessages ++ ["Creating HDFS bundle (noop)"] :=
  ⟨rfl, rfl, rfl⟩

end DcosCommons
